import Mathlib

/-!
Verification of the EnglishCard word-learning bot (src/main.py) against its
specification.  The Python handlers are shallowly embedded as pure Lean
functions over an explicit database state; the SQL sampling clauses
(`ORDER BY RANDOM() LIMIT n`) are embedded as nondeterministic relations
(`List.Subperm` plus a length bound).
-/

namespace EnglishCard

/-- A row of the `common_words` table (shared, pre-seeded corpus). -/
structure CommonWord where
  word_id : Nat
  english_word : String
  russian_translation : String
  word_type : Option String
deriving DecidableEq

/-- A row of the `user_words` table (per-user personal dictionary). -/
structure UserWord where
  user_word_id : Nat
  user_id : Int
  english_word : String
  russian_translation : String
  is_active : Bool
deriving DecidableEq

/-- A row of the `user_stats` table (append-only answer history).
`word_ref` is the signed word reference: `+word_id` for a shared word,
`-word_id` for a personal word. -/
structure AnswerEvent where
  user_id : Int
  word_ref : Int
  is_correct : Bool
deriving DecidableEq

/-- The persistent database state. -/
structure DB where
  common_words : List CommonWord
  user_words : List UserWord
  user_stats : List AnswerEvent
deriving DecidableEq

/-- The three difficulty tiers of `DIFFICULTY_LEVELS`. -/
inductive Difficulty
  | easy
  | medium
  | hard
deriving DecidableEq

/-- `DIFFICULTY_LEVELS[...]['words_limit']`: per-pool candidate limit. -/
def words_limit : Difficulty → Nat
  | .easy => 10
  | .medium => 20
  | .hard => 50

/-- Eligibility of a shared-corpus row for the question-word query of
`start_quiz`, translated from the three SQL `WHERE` clauses:
easy keeps `word_type IN ('цвет', 'местоимение', 'число')` (an SQL `IN`
never matches a NULL `word_type`); medium keeps
`word_type != 'сложное' OR word_type IS NULL`; hard has no filter. -/
def commonEligible (d : Difficulty) (w : CommonWord) : Bool :=
  match d with
  | .easy =>
      w.word_type == some "цвет" || w.word_type == some "местоимение" ||
        w.word_type == some "число"
  | .medium => w.word_type != some "сложное"
  | .hard => true

/-- The user's active personal words (`user_id = %s AND is_active = TRUE`). -/
def activeUserWords (db : DB) (uid : Int) : List UserWord :=
  db.user_words.filter (fun w => w.user_id == uid && w.is_active)

/-- The keyboard markup attached to an outgoing message. -/
inductive Keyboard
  | mainMenu
  | nextQuestion
  | wordChoice (items : List String)
deriving DecidableEq

/-- The text of the back-to-main-menu button. -/
def backText : String := "🔙 Главное меню"

def chooseActionText : String := "Выбери действие:"

def correctText : String := "✅ Правильно! Молодец :)"

def wrongText : String := "❌ Неправильно :( Попробуй еще раз."

def dbErrorText : String := "Ошибка подключения к базе данных."

/-- Result of `check_quiz_answer`: the feedback verdict (`none` when the
handler aborted to the main menu), the text and keyboard of the message
sent, and the resulting `user_stats` table. -/
structure QuizAnswerResult where
  feedback : Option Bool
  response : String
  keyboard : Keyboard
  stats : List AnswerEvent
deriving DecidableEq

/-- Embedding of `check_quiz_answer(message, correct_answer, source_type,
word_id)`.  `connOk` models whether `safe_connect()` succeeded and the
`INSERT` committed; on failure the exception is swallowed and only the
write is lost. -/
def check_quiz_answer (user_answer : String) (user_id : Int)
    (correct_answer source_type : String) (word_id : Nat)
    (connOk : Bool) (stats : List AnswerEvent) : QuizAnswerResult :=
  if user_answer = backText then
    ⟨none, chooseActionText, .mainMenu, stats⟩
  else
    let is_correct := user_answer == correct_answer
    let response := if is_correct then correctText else wrongText
    let statsAfter :=
      if connOk then
        if source_type == "common" then
          stats ++ [⟨user_id, (word_id : Int), is_correct⟩]
        else
          stats ++ [⟨user_id, -(word_id : Int), is_correct⟩]
      else stats
    ⟨some is_correct, response, .nextQuestion, statsAfter⟩

/-- `COUNT(*) FROM user_words WHERE user_id = %s AND is_active = TRUE`. -/
def countActivePersonalWords (db : DB) (uid : Int) : Nat :=
  (activeUserWords db uid).length

/-- `COUNT(*) FROM user_stats WHERE user_id = %s AND is_correct = TRUE`. -/
def correctCount (db : DB) (uid : Int) : Nat :=
  (db.user_stats.filter (fun e => e.user_id == uid && e.is_correct)).length

/-- `COUNT(*) FROM user_stats WHERE user_id = %s`. -/
def totalAnswered (db : DB) (uid : Int) : Nat :=
  (db.user_stats.filter (fun e => e.user_id == uid)).length

/-- `accuracy = (correct_answers / total_answers * 100) if total_answers > 0
else 0`, computed exactly over ℚ. -/
def accuracy (db : DB) (uid : Int) : ℚ :=
  if 0 < totalAnswered db uid then
    (correctCount db uid : ℚ) / (totalAnswered db uid : ℚ) * 100
  else 0

/-- Rounding to one decimal place, the `{accuracy:.1f}` rendering. -/
def round1 (q : ℚ) : ℚ := (⌊q * 10 + 1 / 2⌋ : ℚ) / 10

/-- The accuracy percentage as displayed by `show_stats`. -/
def displayedAccuracy (db : DB) (uid : Int) : ℚ := round1 (accuracy db uid)

/-- Python whitespace for `str.strip()`. -/
def isPySpace (c : Char) : Bool :=
  c == ' ' || c == '\t' || c == '\n' || c == '\r' ||
    c == Char.ofNat 11 || c == Char.ofNat 12

/-- `str.strip()`: drop whitespace from both ends. -/
def pyStrip (s : List Char) : List Char :=
  ((s.dropWhile isPySpace).reverse.dropWhile isPySpace).reverse

/-- `str.lower()` restricted to the alphabets this program stores:
ASCII `A-Z` and Cyrillic `А-Я`/`Ё` map to their lowercase forms. -/
def pyLowerChar (c : Char) : Char :=
  if 'A' ≤ c ∧ c ≤ 'Z' then Char.ofNat (c.toNat + 32)
  else if 'А' ≤ c ∧ c ≤ 'Я' then Char.ofNat (c.toNat + 32)
  else if c = 'Ё' then 'ё'
  else c

/-- `text.split('-', 1)`: split at the first `'-'`; `none` when there is
no `'-'` (the Python unpacking then raises `ValueError`). -/
def splitFirstDash : List Char → Option (List Char × List Char)
  | [] => none
  | c :: rest =>
      if c = '-' then some ([], rest)
      else
        match splitFirstDash rest with
        | none => none
        | some (a, b) => some (c :: a, b)

/-- Fresh `SERIAL` primary key for a `user_words` insert: one more than
every existing id. -/
def nextUserWordId (db : DB) : Nat :=
  (db.user_words.map (fun w => w.user_word_id)).foldr max 0 + 1

def formatErrorText : String :=
  "Неправильный формат. Пожалуйста, введи слово в формате: " ++
    "английское_слово - русский_перевод. Попробуй снова: /add_word"

def addErrorText : String := "Произошла ошибка при добавлении слова."

def addedText (english : String) (count : Nat) : String :=
  "✅ Слово " ++ english ++ " добавлено в твой словарь. " ++
    "📚 Теперь ты изучаешь " ++ toString count ++ " слов."

/-- Embedding of `process_new_word(message)`: strips the text, splits at
the first `'-'`, strips both parts, rejects an absent `'-'` or an empty
part (`ValueError` → format-error re-prompt), otherwise inserts the
lowercased pair as a new active row.  `connAvail` models `safe_connect()`
returning a connection (on `None` the code body under `if conn:` is
skipped and nothing is sent); `writeOk` models the `INSERT`/`COUNT`
transaction committing (an exception is caught and reported). -/
def process_new_word (uid : Int) (text : List Char)
    (connAvail writeOk : Bool) (db : DB) :
    List (String × Keyboard) × DB :=
  match splitFirstDash (pyStrip text) with
  | none => ([(formatErrorText, .mainMenu)], db)
  | some (a, b) =>
      let english := pyStrip a
      let russian := pyStrip b
      if english = [] ∨ russian = [] then ([(formatErrorText, .mainMenu)], db)
      else if connAvail then
        if writeOk then
          let row : UserWord :=
            ⟨nextUserWordId db, uid, String.mk (english.map pyLowerChar),
              String.mk (russian.map pyLowerChar), true⟩
          let dbAfter : DB := { db with user_words := db.user_words ++ [row] }
          ([(addedText (String.mk english) (countActivePersonalWords dbAfter uid),
              .mainMenu)], dbAfter)
        else ([(addErrorText, .mainMenu)], db)
      else ([], db)

/-- Provenance of the selected question word. -/
inductive Source
  | common
  | user
deriving DecidableEq

/-- The data `start_quiz` selects and the answer handler needs: the SQL row
`(source, word_id, english_word, russian_translation)`. -/
structure Question where
  source : Source
  word_id : Nat
  english_word : String
  correct_translation : String
deriving DecidableEq

/-- View of a shared-corpus row as a candidate question. -/
def commonQ (w : CommonWord) : Question :=
  ⟨.common, w.word_id, w.english_word, w.russian_translation⟩

/-- View of a personal-dictionary row as a candidate question. -/
def userQ (w : UserWord) : Question :=
  ⟨.user, w.user_word_id, w.english_word, w.russian_translation⟩

/-- `ORDER BY RANDOM() LIMIT n`: the sample is some rows of the table in
some order, exactly `min n` (table size) of them. -/
def RandomSample (table : List α) (n : Nat) (sample : List α) : Prop :=
  sample.Subperm table ∧ sample.length = min n table.length

/-- The question-word selection of `start_quiz`: up to `words_limit`
category-filtered shared rows and up to `words_limit` active personal rows
are sampled, the two samples are concatenated (`UNION ALL`), and `q` is
one row of the combined sample (`ORDER BY RANDOM() LIMIT 1`). -/
def SelectsQuestion (db : DB) (uid : Int) (d : Difficulty) (q : Question) : Prop :=
  ∃ cs us : List Question,
    RandomSample ((db.common_words.filter (commonEligible d)).map commonQ)
      (words_limit d) cs ∧
    RandomSample ((activeUserWords db uid).map userQ) (words_limit d) us ∧
    q ∈ cs ++ us

/-- The table the wrong-options query draws from: every shared translation
different from the correct answer, `UNION ALL` every active personal
translation of this user different from the correct answer. -/
def wrongPool (db : DB) (uid : Int) (correct : String) : List String :=
  (db.common_words.filter
      (fun w => w.russian_translation != correct)).map
    (fun w => w.russian_translation) ++
  (db.user_words.filter
      (fun w => w.user_id == uid && w.russian_translation != correct &&
        w.is_active)).map
    (fun w => w.russian_translation)

/-- `ORDER BY RANDOM() LIMIT 3` over `wrongPool`. -/
def SelectsWrong (db : DB) (uid : Int) (correct : String)
    (ws : List String) : Prop :=
  RandomSample (wrongPool db uid correct) 3 ws

def notFoundText : String := "Слово не найдено в твоем словаре."

def removedText (word : String) (count : Nat) : String :=
  "🗑️ Слово " ++ word ++ " удалено из твоего словаря. " ++
    "📚 Теперь ты изучаешь " ++ toString count ++ " слов."

/-- The `word_dict` built by `remove_word`: one `(english_word, word_id)`
binding per fetched active row; Python dict insertion overwrites, so a
later row with the same headword wins. -/
def buildWordDict (ws : List UserWord) : List (String × Nat) :=
  ws.map (fun w => (w.english_word, w.user_word_id))

/-- `word_dict[text]` with last-binding-wins semantics (`none` when the
key is absent, the `text not in word_dict` test). -/
def dictLookup (d : List (String × Nat)) (k : String) : Option Nat :=
  (d.reverse.find? (fun p => p.1 == k)).map (fun p => p.2)

/-- The `UPDATE user_words SET is_active = FALSE WHERE user_word_id = %s
AND user_id = %s` row transformer. -/
def deactivateRow (uid : Int) (wid : Nat) (w : UserWord) : UserWord :=
  if w.user_word_id == wid && w.user_id == uid then
    { w with is_active := false }
  else w

/-- Embedding of `confirm_remove(message, word_dict)`: the back button
aborts; a headword absent from `word_dict` reports not-found; otherwise,
when `safe_connect()` yields a connection (`connAvail`), the row is
soft-deleted and a confirmation with the new count is sent — when it
yields `None`, the `if conn:` body is skipped and nothing is sent. -/
def confirm_remove (db : DB) (uid : Int) (dict : List (String × Nat))
    (text : String) (connAvail : Bool) :
    List (String × Keyboard) × DB :=
  if text = backText then ([(chooseActionText, .mainMenu)], db)
  else
    match dictLookup dict text with
    | none => ([(notFoundText, .mainMenu)], db)
    | some wid =>
        if connAvail then
          let dbAfter : DB :=
            { db with user_words := db.user_words.map (deactivateRow uid wid) }
          ([(removedText text (countActivePersonalWords dbAfter uid),
              .mainMenu)], dbAfter)
        else ([], db)

def welcomeText (first_name : String) : String :=
  "Привет, " ++ first_name ++ "! 👋 Меня зовут Коннор."

/-- Messages sent by `start(message)`: when `safe_connect()` returns
`None` the handler does `return` before any send. -/
def start_messages (connAvail : Bool) (first_name : String) :
    List (String × Keyboard) :=
  if connAvail then [(welcomeText first_name, .mainMenu)] else []

def noWordsQuizText : String :=
  "Нет слов для тестирования. Добавь слова через /add_word"

/-- `DIFFICULTY_LEVELS[...]['name']`. -/
def difficulty_name : Difficulty → String
  | .easy => "🍏 Легкий"
  | .medium => "🍊 Средний"
  | .hard => "🌶️ Сложный"

def questionText (d : Difficulty) (english : String) : String :=
  "Уровень: " ++ difficulty_name d ++ " Как переводится слово: " ++
    english ++ "?"

/-- Messages sent by `start_quiz`: connection failure and the empty-pool
case each render one message with the main keyboard; a selected question
is presented with its option keyboard. -/
def start_quiz_messages (connAvail : Bool) (d : Difficulty)
    (picked : Option (Question × List String)) :
    List (String × Keyboard) :=
  if connAvail then
    match picked with
    | none => [(noWordsQuizText, .mainMenu)]
    | some (q, opts) =>
        [(questionText d q.english_word, .wordChoice (opts ++ [backText]))]
  else [(dbErrorText, .mainMenu)]

def statsErrorText : String := "Произошла ошибка при получении статистики."

def statsText (db : DB) (uid : Int) : String :=
  "📊 Твоя статистика: слов " ++
    toString (countActivePersonalWords db uid) ++ ", правильных " ++
    toString (correctCount db uid) ++ " из " ++
    toString (totalAnswered db uid)

/-- Messages sent by `show_stats`. -/
def show_stats_messages (connAvail : Bool) (db : DB) (uid : Int) :
    List (String × Keyboard) :=
  if connAvail then [(statsText db uid, .mainMenu)]
  else [(dbErrorText, .mainMenu)]

def noWordsToRemoveText : String := "У тебя нет слов для удаления."

def chooseWordText : String := "Выбери слово для удаления:"

/-- Messages sent by `remove_word` (the listing step before
`confirm_remove`). -/
def remove_word_messages (connAvail : Bool) (activeWords : List UserWord) :
    List (String × Keyboard) :=
  if connAvail then
    if activeWords = [] then [(noWordsToRemoveText, .mainMenu)]
    else
      [(chooseWordText,
        .wordChoice (activeWords.map (fun w => w.english_word) ++ [backText]))]
  else [(dbErrorText, .mainMenu)]

/-- The empty database. -/
def emptyDB : DB := ⟨[], [], []⟩

/-- A database holding two answer events for user 1, one correct and one
incorrect (the accuracy scenario of the spec). -/
def statsDB : DB := ⟨[], [], [⟨1, 5, true⟩, ⟨1, 5, false⟩]⟩

/-- The shared-corpus scenario of the spec: red→красный (цвет),
one→один (число), abundance→изобилие (сложное); no personal words. -/
def easyDB : DB :=
  ⟨[⟨1, "red", "красный", some "цвет"⟩,
    ⟨2, "one", "один", some "число"⟩,
    ⟨3, "abundance", "изобилие", some "сложное"⟩], [], []⟩

/-- A database whose distractor pool repeats one translation: user 1 has
two distinct active rows both translated "яблоко". -/
def dupDB : DB :=
  ⟨[⟨1, "one", "один", some "число"⟩],
   [⟨1, 1, "apple", "яблоко", true⟩, ⟨2, 1, "pear", "яблоко", true⟩], []⟩

/-- Claim C3: `check_quiz_answer` reports correct exactly when the
submitted text equals the stored correct translation by exact string
comparison, and appends exactly one `AnswerEvent` whose `word_ref` is
`+word_id` for a shared-pool question and `-word_id` for a personal-pool
question. -/
theorem check_answer_exact_match_and_signed_ref
    (ans correct st : String) (uid : Int) (wid : Nat)
    (stats : List AnswerEvent) (hmenu : ans ≠ backText) :
    (check_quiz_answer ans uid correct st wid true stats).feedback
        = some (ans == correct)
    ∧ (check_quiz_answer ans uid correct st wid true stats).stats
        = stats ++
            [⟨uid, if st == "common" then (wid : Int) else -(wid : Int),
              ans == correct⟩] := by
  unfold check_quiz_answer
  rw [if_neg hmenu]
  refine ⟨rfl, ?_⟩
  by_cases h : st == "common" <;> simp [h]

theorem check_answer_exact_match_witness :
    (check_quiz_answer "красный" 1 "красный" "common" 5 true []).feedback
        = some ("красный" == "красный")
    ∧ (check_quiz_answer "красный" 1 "красный" "common" 5 true []).stats
        = [] ++
            [⟨1, if ("common" : String) == "common" then (5 : Int) else -(5 : Int),
              "красный" == "красный"⟩] :=
  check_answer_exact_match_and_signed_ref "красный" "красный" "common" 1 5 []
    (by decide)

/-- Claim C4: the feedback shown to the user is computed independently of
the persistence write — with the write disabled (`connOk = false`) the
verdict, response text and keyboard are unchanged, and the history table
is left as it was. -/
theorem feedback_isolated_from_write_failure
    (ans correct st : String) (uid : Int) (wid : Nat)
    (stats : List AnswerEvent) (connOk : Bool) :
    (check_quiz_answer ans uid correct st wid connOk stats).feedback
        = (check_quiz_answer ans uid correct st wid true stats).feedback
    ∧ (check_quiz_answer ans uid correct st wid connOk stats).response
        = (check_quiz_answer ans uid correct st wid true stats).response
    ∧ (check_quiz_answer ans uid correct st wid connOk stats).keyboard
        = (check_quiz_answer ans uid correct st wid true stats).keyboard
    ∧ (check_quiz_answer ans uid correct st wid false stats).stats = stats := by
  unfold check_quiz_answer
  by_cases h : ans = backText <;> simp [h]

/-- Claim C10: a reply equal to the back-button text aborts the answer
handler — no event is appended, no correct/incorrect feedback is emitted —
even when that string is the question's correct translation. -/
theorem menu_reply_aborts_quiz_answer
    (uid : Int) (correct st : String) (wid : Nat) (connOk : Bool)
    (stats : List AnswerEvent) :
    check_quiz_answer backText uid correct st wid connOk stats
        = ⟨none, chooseActionText, .mainMenu, stats⟩
    ∧ check_quiz_answer backText uid backText st wid connOk stats
        = ⟨none, chooseActionText, .mainMenu, stats⟩ := by
  constructor <;> simp [check_quiz_answer]

/-- Claim C5: the displayed accuracy is `correctCount / totalAnswered *
100` rounded to one decimal place when there are answers and `0` when
there are none; the one-correct-one-incorrect scenario yields counts 1 of
2 and 50.0 percent. -/
theorem stats_accuracy_formula :
    (∀ (db : DB) (uid : Int), totalAnswered db uid = 0 →
        displayedAccuracy db uid = 0)
    ∧ (∀ (db : DB) (uid : Int), 0 < totalAnswered db uid →
        displayedAccuracy db uid
          = round1 ((correctCount db uid : ℚ) / (totalAnswered db uid : ℚ)
              * 100))
    ∧ correctCount statsDB 1 = 1 ∧ totalAnswered statsDB 1 = 2
    ∧ displayedAccuracy statsDB 1 = 50 := by
  have hc : correctCount statsDB 1 = 1 := by decide
  have ht : totalAnswered statsDB 1 = 2 := by decide
  refine ⟨?_, ?_, hc, ht, ?_⟩
  · intro db uid h
    simp only [displayedAccuracy, accuracy, h, lt_irrefl, if_false]
    norm_num [round1]
  · intro db uid h
    simp [displayedAccuracy, accuracy, h]
  · show round1 (accuracy statsDB 1) = 50
    rw [accuracy, if_pos (by decide), hc, ht]
    norm_num [round1]

theorem stats_accuracy_witness :
    displayedAccuracy emptyDB 1 = 0
    ∧ displayedAccuracy statsDB 1
        = round1 ((correctCount statsDB 1 : ℚ) / (totalAnswered statsDB 1 : ℚ)
            * 100) :=
  ⟨stats_accuracy_formula.1 emptyDB 1 (by decide),
   stats_accuracy_formula.2.1 statsDB 1 (by decide)⟩

/-- Every translation in the wrong-options table differs from the correct
answer: both branches of the `UNION ALL` filter it out. -/
lemma ne_of_mem_wrongPool {db : DB} {uid : Int} {c w : String}
    (h : w ∈ wrongPool db uid c) : w ≠ c := by
  unfold wrongPool at h
  rcases List.mem_append.1 h with h | h
  · rcases List.mem_map.1 h with ⟨r, hr, rfl⟩
    have h2 := (List.mem_filter.1 hr).2
    simpa using h2
  · rcases List.mem_map.1 h with ⟨r, hr, rfl⟩
    have h2 := (List.mem_filter.1 hr).2
    simp only [Bool.and_eq_true, bne_iff_ne] at h2
    exact h2.1.2

/-- Claim C1 (amended): for any selected question and any wrong-options
sample, the shuffled options list contains the correct translation exactly
once, every wrong option differs from the correct answer, and at most 3
wrong options are drawn; duplicate wrong strings are possible (the claim's
no-duplicates clause fails, see the counterexample). -/
theorem quiz_options_correct_once
    (db : DB) (uid : Int) (d : Difficulty) (q : Question)
    (ws opts : List String)
    (_hq : SelectsQuestion db uid d q)
    (hw : SelectsWrong db uid q.correct_translation ws)
    (hp : opts.Perm (q.correct_translation :: ws)) :
    opts.count q.correct_translation = 1
    ∧ ws.length ≤ 3
    ∧ ∀ w ∈ ws, w ≠ q.correct_translation := by
  obtain ⟨hsub, hlen⟩ := hw
  have hnot : q.correct_translation ∉ ws := fun hmem =>
    ne_of_mem_wrongPool (hsub.subset hmem) rfl
  refine ⟨?_, ?_, fun w hw2 => ne_of_mem_wrongPool (hsub.subset hw2)⟩
  · rw [hp.count_eq, List.count_cons_self, List.count_eq_zero.2 hnot]
  · rw [hlen]
    exact min_le_left _ _

theorem quiz_options_once_witness :
    (["один", "яблоко", "яблоко"] : List String).count "один" = 1
    ∧ (["яблоко", "яблоко"] : List String).length ≤ 3
    ∧ ∀ w ∈ (["яблоко", "яблоко"] : List String), w ≠ "один" :=
  quiz_options_correct_once dupDB 1 .hard
    (commonQ ⟨1, "one", "один", some "число"⟩)
    ["яблоко", "яблоко"] ["один", "яблоко", "яблоко"]
    ⟨(dupDB.common_words.filter (commonEligible .hard)).map commonQ,
     (activeUserWords dupDB 1).map userQ,
     ⟨List.Subperm.refl _, by decide⟩, ⟨List.Subperm.refl _, by decide⟩,
     by decide⟩
    ⟨List.Subperm.refl _, by decide⟩
    (List.Perm.refl _)

/-- Claim C1, counterexample to the no-duplicates clause: with two active
personal rows both translated "яблоко", the distractor query (a
`UNION ALL` with no deduplication) can return that string twice, so the
presented options list holds duplicate strings. -/
theorem quiz_options_duplicate_counterexample :
    SelectsQuestion dupDB 1 .hard (commonQ ⟨1, "one", "один", some "число"⟩)
    ∧ SelectsWrong dupDB 1 "один" ["яблоко", "яблоко"]
    ∧ (["один", "яблоко", "яблоко"] : List String).Perm
        ("один" :: ["яблоко", "яблоко"])
    ∧ ¬ (["один", "яблоко", "яблоко"] : List String).Nodup :=
  ⟨⟨(dupDB.common_words.filter (commonEligible .hard)).map commonQ,
    (activeUserWords dupDB 1).map userQ,
    ⟨List.Subperm.refl _, by decide⟩, ⟨List.Subperm.refl _, by decide⟩,
    by decide⟩,
   ⟨List.Subperm.refl _, by decide⟩,
   List.Perm.refl _,
   by decide⟩

/-- Claim C2: a shared-pool question word always satisfies the tier's
category filter — easy admits exactly the whitelist
цвет/местоимение/число (so `abundance`, tagged сложное, is never the
question word in the scenario database), medium excludes сложное, hard
admits everything — and the per-pool limits are 10/20/50. -/
theorem quiz_question_respects_tier_filter :
    (∀ (db : DB) (uid : Int) (d : Difficulty) (q : Question),
        SelectsQuestion db uid d q → q.source = Source.common →
        ∃ w, w ∈ db.common_words ∧ commonEligible d w = true ∧ q = commonQ w)
    ∧ (∀ w : CommonWord, commonEligible .easy w = true ↔
        (w.word_type = some "цвет" ∨ w.word_type = some "местоимение" ∨
          w.word_type = some "число"))
    ∧ (∀ w : CommonWord, commonEligible .medium w = true ↔
        w.word_type ≠ some "сложное")
    ∧ (∀ w : CommonWord, commonEligible .hard w = true)
    ∧ (∀ (uid : Int) (q : Question), SelectsQuestion easyDB uid .easy q →
        q.english_word ≠ "abundance")
    ∧ words_limit .easy = 10 ∧ words_limit .medium = 20
    ∧ words_limit .hard = 50 := by
  refine ⟨?_, ?_, ?_, ?_, ?_, rfl, rfl, rfl⟩
  · intro db uid d q hsel hsource
    obtain ⟨cs, us, ⟨hcs, _⟩, ⟨hus, _⟩, hmem⟩ := hsel
    rcases List.mem_append.1 hmem with hin | hin
    · have hq := hcs.subset hin
      rcases List.mem_map.1 hq with ⟨w, hw, rfl⟩
      exact ⟨w, (List.mem_filter.1 hw).1, (List.mem_filter.1 hw).2, rfl⟩
    · have hq := hus.subset hin
      rcases List.mem_map.1 hq with ⟨w, _, rfl⟩
      simp [userQ] at hsource
  · intro w
    simp [commonEligible, or_assoc]
  · intro w
    simp [commonEligible]
  · intro w
    rfl
  · intro uid q hsel
    obtain ⟨cs, us, ⟨hcs, _⟩, ⟨hus, _⟩, hmem⟩ := hsel
    rcases List.mem_append.1 hmem with hin | hin
    · have hq := hcs.subset hin
      have hq2 : q ∈ [commonQ ⟨1, "red", "красный", some "цвет"⟩,
          commonQ ⟨2, "one", "один", some "число"⟩] := hq
      simp only [List.mem_cons, List.not_mem_nil, or_false] at hq2
      rcases hq2 with h | h <;> (rw [h]; decide)
    · have hq := hus.subset hin
      simp [activeUserWords, easyDB] at hq

theorem quiz_filter_witness :
    ∃ w, w ∈ easyDB.common_words ∧ commonEligible .easy w = true
      ∧ commonQ ⟨1, "red", "красный", some "цвет"⟩ = commonQ w :=
  quiz_question_respects_tier_filter.1 easyDB 7 .easy
    (commonQ ⟨1, "red", "красный", some "цвет"⟩)
    ⟨(easyDB.common_words.filter (commonEligible .easy)).map commonQ, [],
     ⟨List.Subperm.refl _, by decide⟩, ⟨List.nil_subperm, by decide⟩,
     by decide⟩
    rfl

/-- `splitFirstDash` finds nothing exactly when the text has no `'-'`. -/
lemma splitFirstDash_eq_none_iff (s : List Char) :
    splitFirstDash s = none ↔ '-' ∉ s := by
  induction s with
  | nil => simp [splitFirstDash]
  | cons c rest ih =>
      rw [splitFirstDash]
      by_cases h : c = '-'
      · subst h
        simp
      · rw [if_neg h]
        cases hs : splitFirstDash rest with
        | none =>
            simp only [List.mem_cons, not_or]
            exact ⟨fun _ => ⟨fun hh => h hh.symm, ih.1 hs⟩, fun _ => trivial⟩
        | some p =>
            obtain ⟨a, b⟩ := p
            constructor
            · intro hcon
              cases hcon
            · intro hmem
              have hr : '-' ∈ rest := by
                by_contra hc
                rw [ih.2 hc] at hs
                cases hs
              exact absurd (List.mem_cons_of_mem _ hr) hmem

/-- Stripping only removes characters, so membership is preserved. -/
lemma pyStrip_subset (s : List Char) : pyStrip s ⊆ s := by
  intro x hx
  unfold pyStrip at hx
  rw [List.mem_reverse] at hx
  have h1 := (List.dropWhile_sublist (l := (s.dropWhile isPySpace).reverse)
    (p := isPySpace)).subset hx
  rw [List.mem_reverse] at h1
  exact (List.dropWhile_sublist (l := s) (p := isPySpace)).subset h1

/-- Successful parse: `process_new_word` appends exactly one active row
holding the lowercased stripped segments, under a fresh id. -/
lemma process_new_word_valid_db (uid : Int) (text a b : List Char) (db : DB)
    (hsplit : splitFirstDash (pyStrip text) = some (a, b))
    (ha : pyStrip a ≠ []) (hb : pyStrip b ≠ []) :
    (process_new_word uid text true true db).2
      = { db with user_words := db.user_words ++
          [⟨nextUserWordId db, uid, String.mk ((pyStrip a).map pyLowerChar),
            String.mk ((pyStrip b).map pyLowerChar), true⟩] } := by
  simp only [process_new_word, hsplit]
  rw [if_neg (fun hor => hor.elim ha hb)]
  simp

/-- Claim C6: adding a word succeeds exactly when the input splits at the
first `'-'` into two non-empty trimmed segments — no `'-'` or an empty
segment yields the format-error re-prompt with no row inserted — and on
success both segments are lowercased before storage; in particular
"justoneword" is rejected. -/
theorem add_word_format_validation :
    (∀ (s : List Char), splitFirstDash s = none ↔ '-' ∉ s)
    ∧ (∀ (uid : Int) (text : List Char) (cA wO : Bool) (db : DB),
        '-' ∉ text →
        process_new_word uid text cA wO db
          = ([(formatErrorText, .mainMenu)], db))
    ∧ (∀ (uid : Int) (text : List Char) (cA wO : Bool) (db : DB)
        (a b : List Char), splitFirstDash (pyStrip text) = some (a, b) →
        (pyStrip a = [] ∨ pyStrip b = []) →
        process_new_word uid text cA wO db
          = ([(formatErrorText, .mainMenu)], db))
    ∧ (∀ (uid : Int) (text : List Char) (db : DB) (a b : List Char),
        splitFirstDash (pyStrip text) = some (a, b) →
        pyStrip a ≠ [] → pyStrip b ≠ [] →
        (process_new_word uid text true true db).2.user_words
          = db.user_words ++
            [⟨nextUserWordId db, uid,
              String.mk ((pyStrip a).map pyLowerChar),
              String.mk ((pyStrip b).map pyLowerChar), true⟩])
    ∧ process_new_word 1 "justoneword".data true true emptyDB
        = ([(formatErrorText, .mainMenu)], emptyDB)
    ∧ (process_new_word 1 "Apple - Яблоко".data true true emptyDB).2.user_words
        = [⟨1, 1, "apple", "яблоко", true⟩] := by
  refine ⟨splitFirstDash_eq_none_iff, ?_, ?_, ?_, by decide, by decide⟩
  · intro uid text cA wO db hdash
    have hnone : splitFirstDash (pyStrip text) = none :=
      (splitFirstDash_eq_none_iff _).2 fun hm => hdash (pyStrip_subset _ hm)
    simp only [process_new_word, hnone]
  · intro uid text cA wO db a b hsplit hor
    simp only [process_new_word, hsplit]
    rw [if_pos hor]
  · intro uid text db a b hsplit ha hb
    rw [process_new_word_valid_db uid text a b db hsplit ha hb]

theorem add_word_format_witness :
    (process_new_word 1 "Apple - Яблоко".data true true emptyDB).2.user_words
      = emptyDB.user_words ++
        [⟨nextUserWordId emptyDB, 1,
          String.mk ((pyStrip "Apple ".data).map pyLowerChar),
          String.mk ((pyStrip " Яблоко".data).map pyLowerChar), true⟩] :=
  add_word_format_validation.2.2.2.1 1 "Apple - Яблоко".data emptyDB
    "Apple ".data " Яблоко".data (by decide) (by decide) (by decide)

/-- `text not in word_dict` holds exactly when no binding carries the key. -/
lemma dictLookup_eq_none_iff (d : List (String × Nat)) (k : String) :
    dictLookup d k = none ↔ k ∉ d.map (fun p => p.1) := by
  unfold dictLookup
  rw [Option.map_eq_none', List.find?_eq_none]
  constructor
  · intro h hk
    rcases List.mem_map.1 hk with ⟨p, hp, rfl⟩
    have hp2 := h p (List.mem_reverse.2 hp)
    simp at hp2
  · intro h p hp hbeq
    exact h (List.mem_map.2 ⟨p, List.mem_reverse.1 hp, eq_of_beq hbeq⟩)

/-- The keys of the rendered word dictionary are the active headwords. -/
lemma buildWordDict_keys (ws : List UserWord) :
    (buildWordDict ws).map (fun p => p.1) = ws.map (fun w => w.english_word) := by
  simp [buildWordDict]

/-- The freshly appended binding wins the dictionary lookup. -/
lemma dictLookup_append_last (d : List (String × Nat)) (k : String) (v : Nat) :
    dictLookup (d ++ [(k, v)]) k = some v := by
  unfold dictLookup
  rw [List.reverse_append]
  simp [List.find?]

/-- A found word: `confirm_remove` only maps `deactivateRow` over the
user-words table. -/
lemma confirm_remove_found (db : DB) (uid : Int) (dict : List (String × Nat))
    (text : String) (wid : Nat) (htext : text ≠ backText)
    (hfind : dictLookup dict text = some wid) :
    (confirm_remove db uid dict text true).2
      = { db with user_words := db.user_words.map (deactivateRow uid wid) } := by
  simp only [confirm_remove, hfind]
  rw [if_neg htext]
  simp

/-- A missing word: `confirm_remove` reports not-found and changes nothing. -/
lemma confirm_remove_missing (db : DB) (uid : Int) (dict : List (String × Nat))
    (text : String) (htext : text ≠ backText)
    (hfind : dictLookup dict text = none) :
    confirm_remove db uid dict text true = ([(notFoundText, .mainMenu)], db) := by
  simp only [confirm_remove, hfind]
  rw [if_neg htext]

/-- Claim C7: word removal looks the target up by exact display text among
the user's active words, fails with not-found (leaving the database
untouched) when absent, and on success only flips the matched row's
`is_active` flag — every other field and every other row is unchanged and
no row is deleted. -/
theorem remove_word_soft_delete :
    (∀ (db : DB) (uid : Int) (text : String),
        dictLookup (buildWordDict (activeUserWords db uid)) text = none ↔
          text ∉ (activeUserWords db uid).map (fun w => w.english_word))
    ∧ (∀ (db : DB) (uid : Int) (dict : List (String × Nat)) (text : String),
        text ≠ backText → dictLookup dict text = none →
        confirm_remove db uid dict text true
          = ([(notFoundText, .mainMenu)], db))
    ∧ (∀ (db : DB) (uid : Int) (dict : List (String × Nat)) (text : String)
        (wid : Nat), text ≠ backText → dictLookup dict text = some wid →
        ((confirm_remove db uid dict text true).2.user_words
            = db.user_words.map (deactivateRow uid wid)
          ∧ (confirm_remove db uid dict text true).2.common_words
              = db.common_words
          ∧ (confirm_remove db uid dict text true).2.user_stats
              = db.user_stats
          ∧ (confirm_remove db uid dict text true).2.user_words.length
              = db.user_words.length))
    ∧ (∀ (uid : Int) (wid : Nat) (w : UserWord),
        (deactivateRow uid wid w).user_word_id = w.user_word_id
        ∧ (deactivateRow uid wid w).user_id = w.user_id
        ∧ (deactivateRow uid wid w).english_word = w.english_word
        ∧ (deactivateRow uid wid w).russian_translation
            = w.russian_translation
        ∧ (¬(w.user_word_id = wid ∧ w.user_id = uid) →
            deactivateRow uid wid w = w)) := by
  refine ⟨?_, ?_, ?_, ?_⟩
  · intro db uid text
    rw [dictLookup_eq_none_iff, buildWordDict_keys]
  · intro db uid dict text htext hfind
    exact confirm_remove_missing db uid dict text htext hfind
  · intro db uid dict text wid htext hfind
    rw [confirm_remove_found db uid dict text wid htext hfind]
    exact ⟨rfl, rfl, rfl, List.length_map _ _⟩
  · intro uid wid w
    refine ⟨?_, ?_, ?_, ?_, ?_⟩ <;> unfold deactivateRow
    · split <;> rfl
    · split <;> rfl
    · split <;> rfl
    · split <;> rfl
    · intro h
      rw [if_neg]
      intro hc
      simp only [Bool.and_eq_true, beq_iff_eq] at hc
      exact h hc

theorem remove_word_witness :
    confirm_remove dupDB 1 [("apple", 1)] "pear" true
      = ([(notFoundText, .mainMenu)], dupDB) :=
  remove_word_soft_delete.2.1 dupDB 1 [("apple", 1)] "pear" (by decide)
    (by decide)

lemma le_foldr_max (x : Nat) (l : List Nat) (h : x ∈ l) :
    x ≤ l.foldr max 0 := by
  induction l with
  | nil => cases h
  | cons a t ih =>
      rcases List.mem_cons.1 h with rfl | h2
      · exact le_max_left _ _
      · exact le_trans (ih h2) (le_max_right _ _)

/-- The `SERIAL` id of a fresh insert differs from every stored id. -/
lemma id_ne_nextUserWordId (db : DB) (w : UserWord)
    (h : w ∈ db.user_words) : w.user_word_id ≠ nextUserWordId db := by
  have hle : w.user_word_id
      ≤ (db.user_words.map (fun v => v.user_word_id)).foldr max 0 :=
    le_foldr_max _ _ (List.mem_map_of_mem _ h)
  exact Nat.ne_of_lt (Nat.lt_succ_of_le hle)

/-- Deactivating an id that no row of the list carries is the identity. -/
lemma map_deactivate_fresh (l : List UserWord) (uid : Int) (wid : Nat)
    (h : ∀ w ∈ l, w.user_word_id ≠ wid) :
    l.map (deactivateRow uid wid) = l := by
  induction l with
  | nil => rfl
  | cons a t ih =>
      rw [List.map_cons, ih (fun w hw => h w (List.mem_cons_of_mem _ hw))]
      congr 1
      unfold deactivateRow
      rw [if_neg]
      intro hc
      simp only [Bool.and_eq_true, beq_iff_eq] at hc
      exact h a (List.mem_cons_self _ _) hc.1

/-- Claim C8: adding "Apple - Яблоко" and then removing "apple" through
the rendered word dictionary restores the active personal word count to
its value before the add, for every starting database — including one
where the user already owns rows with the same headword. -/
theorem add_then_remove_active_count_noop (db : DB) (uid : Int) :
    countActivePersonalWords
      ((confirm_remove
          (process_new_word uid "Apple - Яблоко".data true true db).2 uid
          (buildWordDict (activeUserWords
            (process_new_word uid "Apple - Яблоко".data true true db).2 uid))
          "apple" true).2) uid
      = countActivePersonalWords db uid := by
  have hsplit : splitFirstDash (pyStrip ("Apple - Яблоко".data))
      = some ("Apple ".data, " Яблоко".data) := by decide
  have hdb1 := process_new_word_valid_db uid "Apple - Яблоко".data
    "Apple ".data " Яблоко".data db hsplit (by decide) (by decide)
  have hs1 : String.mk ((pyStrip "Apple ".data).map pyLowerChar)
      = "apple" := by decide
  have hs2 : String.mk ((pyStrip " Яблоко".data).map pyLowerChar)
      = "яблоко" := by decide
  rw [hs1, hs2] at hdb1
  rw [hdb1]
  set nid := nextUserWordId db with hnid
  set row : UserWord := ⟨nid, uid, "apple", "яблоко", true⟩ with hrow
  have hact : activeUserWords
      { db with user_words := db.user_words ++ [row] } uid
      = activeUserWords db uid ++ [row] := by
    unfold activeUserWords
    show (db.user_words ++ [row]).filter _ = _
    rw [List.filter_append]
    congr 1
    simp [hrow]
  rw [hact]
  have hdict : buildWordDict (activeUserWords db uid ++ [row])
      = buildWordDict (activeUserWords db uid) ++ [("apple", nid)] := by
    unfold buildWordDict
    rw [List.map_append]
    rfl
  rw [hdict]
  rw [confirm_remove_found _ _ _ _ nid (by decide) (dictLookup_append_last _ _ _)]
  show (((db.user_words ++ [row]).map (deactivateRow uid nid)).filter _).length
      = countActivePersonalWords db uid
  rw [List.map_append]
  rw [map_deactivate_fresh db.user_words uid nid
    (fun w hw => id_ne_nextUserWordId db w hw)]
  rw [List.filter_append]
  have hrow2 : ([row].map (deactivateRow uid nid)).filter
      (fun w => w.user_id == uid && w.is_active) = [] := by
    simp [hrow, deactivateRow]
  rw [hrow2, List.append_nil]
  rfl

/-- Claim C9, counterexample: when `safe_connect()` fails, the `/start`
handler does a bare `return` — the user gets no rendered message at all,
a silent failure path. -/
theorem silent_start_counterexample : start_messages false "Иван" = [] := rfl

/-- Claim C9 (amended): quiz start, stats, the word-removal listing,
format validation and not-found removal each render exactly one message
with the main-menu keyboard on failure; but three paths are silent when
the persistence connection is unavailable — `start`, `process_new_word`
on a well-formed input, and `confirm_remove` on a found word send
nothing. -/
theorem failure_paths_render_or_drop :
    (∀ (d : Difficulty) (picked : Option (Question × List String)),
        start_quiz_messages false d picked = [(dbErrorText, .mainMenu)])
    ∧ (∀ (d : Difficulty),
        start_quiz_messages true d none = [(noWordsQuizText, .mainMenu)])
    ∧ (∀ (db : DB) (uid : Int),
        show_stats_messages false db uid = [(dbErrorText, .mainMenu)])
    ∧ (∀ (ws : List UserWord),
        remove_word_messages false ws = [(dbErrorText, .mainMenu)])
    ∧ (∀ (uid : Int) (text : List Char) (cA wO : Bool) (db : DB),
        splitFirstDash (pyStrip text) = none →
        (process_new_word uid text cA wO db).1
          = [(formatErrorText, .mainMenu)])
    ∧ (∀ (db : DB) (uid : Int) (dict : List (String × Nat)) (text : String),
        text ≠ backText → dictLookup dict text = none →
        (confirm_remove db uid dict text true).1
          = [(notFoundText, .mainMenu)])
    ∧ (∀ (first_name : String), start_messages false first_name = [])
    ∧ (∀ (uid : Int) (text : List Char) (db : DB) (a b : List Char),
        splitFirstDash (pyStrip text) = some (a, b) →
        pyStrip a ≠ [] → pyStrip b ≠ [] →
        (process_new_word uid text false true db).1 = [])
    ∧ (∀ (db : DB) (uid : Int) (dict : List (String × Nat)) (text : String)
        (wid : Nat), text ≠ backText → dictLookup dict text = some wid →
        (confirm_remove db uid dict text false).1 = []) := by
  refine ⟨fun d picked => rfl, fun d => rfl, fun db uid => rfl, fun ws => rfl,
    ?_, ?_, fun f => rfl, ?_, ?_⟩
  · intro uid text cA wO db hnone
    simp only [process_new_word, hnone]
  · intro db uid dict text htext hfind
    rw [confirm_remove_missing db uid dict text htext hfind]
  · intro uid text db a b hsplit ha hb
    simp only [process_new_word, hsplit]
    rw [if_neg (fun hor => hor.elim ha hb)]
    simp
  · intro db uid dict text wid htext hfind
    simp only [confirm_remove, hfind]
    rw [if_neg htext]
    simp

theorem failure_paths_witness :
    (process_new_word 1 "Apple - Яблоко".data false true emptyDB).1 = []
    ∧ (confirm_remove emptyDB 1 [("apple", 3)] "apple" false).1 = [] :=
  ⟨failure_paths_render_or_drop.2.2.2.2.2.2.2.1 1 "Apple - Яблоко".data
      emptyDB "Apple ".data " Яблоко".data (by decide) (by decide) (by decide),
   failure_paths_render_or_drop.2.2.2.2.2.2.2.2 emptyDB 1 [("apple", 3)]
      "apple" 3 (by decide) (by decide)⟩

end EnglishCard
